import Mathlib

/-!
# FajerAlarmLamp: a shallow embedding of `src/main.cpp`

The firmware is a single translation unit with four globals (`fajrHour`,
`fajrMinute`, `isLightOn`, `lightOnTime`) and one output pin.  The globals and
the pin level are gathered in `Device`; every function of the source becomes a
function on `Device`, and each reading of the outside world (civil clock,
`millis()`, Wi-Fi status, HTTP response, JSON decoder) is an explicit argument.

* `int` values are `Int` (no arithmetic is done on them in the source).
* `unsigned long` values are `Nat` taken modulo `2 ^ 32` (ESP32).
* Undefined behaviour of C is the result `none`.
-/

namespace FajrAlarmLamp

/-! ## Data model -/

/-- Number of values of an `unsigned long` on the ESP32 (32 bits). -/
def ULONG_MOD : Nat := 2 ^ 32

/-- Source line 26. -/
def LIGHT_DURATION_MINUTES : Nat := 30

/-- Pin level `HIGH` of the Arduino core. -/
def HIGH : Bool := true

/-- Pin level `LOW` of the Arduino core. -/
def LOW : Bool := false

/-- The fields of `struct tm` that identify a civil instant. -/
structure Tm where
  tm_sec : Int
  tm_min : Int
  tm_hour : Int
  tm_mday : Int
  tm_mon : Int
  tm_year : Int
deriving DecidableEq, Repr

/-- The four globals of lines 30-33 together with the output level of `RELAY_PIN`. -/
structure Device where
  fajrHour : Int
  fajrMinute : Int
  isLightOn : Bool
  lightOnTime : Nat
  relay : Bool
deriving DecidableEq, Repr

/-- The globals as initialised at lines 30-33, with the pin as `setup` leaves it (line 49). -/
def Device.boot : Device :=
  { fajrHour := -1, fajrMinute := -1, isLightOn := false, lightOnTime := 0, relay := LOW }

/-- Subtraction of two `unsigned long` values: `a - b` modulo `2 ^ 32`. -/
def subUL (a b : Nat) : Nat :=
  (a % ULONG_MOD + ULONG_MOD - b % ULONG_MOD) % ULONG_MOD

/-- The value of `LIGHT_DURATION_MINUTES * 60 * 1000UL` (line 182). -/
def durationMs : Nat :=
  (LIGHT_DURATION_MINUTES * 60 * 1000) % ULONG_MOD

/-! ## Lamp control (lines 154-193) -/

/-- Lines 168-177, the lamp ON logic.  `millisAtOn` is what `millis()` returns
on line 176.  The second component lists the `digitalWrite` levels issued. -/
def lampOnLogic (timeinfo : Tm) (millisAtOn : Nat) (g : Device) : Device × List Bool :=
  let currentHour := timeinfo.tm_hour
  let currentMinute := timeinfo.tm_min
  if (!g.isLightOn) && decide (currentHour = g.fajrHour) && decide (currentMinute = g.fajrMinute) then
    ({ g with relay := HIGH, isLightOn := true, lightOnTime := millisAtOn % ULONG_MOD }, [HIGH])
  else
    (g, [])

/-- Lines 179-192, the lamp OFF logic.  `millisAtOff` is what `millis()` returns
on line 181. -/
def lampOffLogic (millisAtOff : Nat) (g : Device) : Device × List Bool :=
  if g.isLightOn then
    let timeElapsed := subUL millisAtOff g.lightOnTime
    if timeElapsed ≥ durationMs then
      ({ g with relay := LOW, isLightOn := false }, [LOW])
    else
      (g, [])
  else
    (g, [])

/-- Lines 154-193.  `localTime` is `none` when `getLocalTime` returns false.
The result is the new device state and the `digitalWrite` levels issued, in order. -/
def checkTimeAndControlLight (localTime : Option Tm) (millisAtOn millisAtOff : Nat)
    (g : Device) : Device × List Bool :=
  match localTime with
  | none => (g, [])
  | some timeinfo =>
    if g.fajrHour = -1 then
      (g, [])
    else
      let r1 := lampOnLogic timeinfo millisAtOn g
      let r2 := lampOffLogic millisAtOff r1.1
      (r2.1, r1.2 ++ r2.2)

/-- A civil reading with the given hour and minute (the other fields zero). -/
def clockAt (h m : Int) : Tm :=
  { tm_sec := 0, tm_min := m, tm_hour := h, tm_mday := 0, tm_mon := 0, tm_year := 0 }

/-- The firing condition of a tick: the clock is readable, a Fajr time is
cached, and the clock's hour and minute are the cached ones. -/
def fajrNow (localTime : Option Tm) (g : Device) : Prop :=
  ∃ t, localTime = some t ∧ g.fajrHour ≠ -1 ∧ t.tm_hour = g.fajrHour ∧ t.tm_min = g.fajrMinute

/-! ## Request URL (lines 117-122) -/

/-- Worker of `String::replace`: scans left to right; `skip` counts the
characters of an occurrence of `find` still to be dropped. -/
def replaceGo (find rep : List Char) : Nat → List Char → List Char
  | _, [] => []
  | skip + 1, _ :: cs => replaceGo find rep skip cs
  | 0, c :: cs =>
    if find.isPrefixOf (c :: cs) then
      rep ++ replaceGo find rep (find.length - 1) cs
    else
      c :: replaceGo find rep 0 cs

/-- Arduino `String::replace(find, replace)`: every occurrence of `find` is
replaced, left to right; an empty `find` changes nothing. -/
def String_replace (s find rep : List Char) : List Char :=
  if find.isEmpty then s else replaceGo find rep 0 s

/-- Lines 117-122: the request URL for the configured `city` and `country`. -/
def apiUrl (city country : List Char) : List Char :=
  let urlCity := String_replace city " ".toList "%20".toList
  let urlCountry := String_replace country " ".toList "%20".toList
  "http://api.aladhan.com/v1/timingsByCity?city=".toList ++ urlCity ++ "&country=".toList
    ++ urlCountry ++ "&method=2".toList

/-- The encoding in the words of the specification: every space character
becomes the three characters `%20`, every other character is kept, in order. -/
def encodeSpaces : List Char → List Char
  | [] => []
  | c :: cs => (if c = ' ' then ['%', '2', '0'] else [c]) ++ encodeSpaces cs

/-! ## Response decoding (lines 132-145) -/

/-- A decoded JSON document, as `deserializeJson` leaves it in `doc`. -/
inductive Json where
  | null : Json
  | bool : Bool → Json
  | num : Int → Json
  | str : List Char → Json
  | arr : List Json → Json
  | obj : List (List Char × Json) → Json

/-- ArduinoJson `variant[key]`: the member of an object, the null variant when
the variant is not an object or has no such member. -/
def Json.member (j : Json) (key : List Char) : Json :=
  match j with
  | Json.obj members =>
    match members.lookup key with
    | some v => v
    | none => Json.null
  | _ => Json.null

/-- ArduinoJson conversion of a variant to `const char*`: the null pointer
(`none`) unless the variant is a string. -/
def Json.asCString (j : Json) : Option (List Char) :=
  match j with
  | Json.str s => some s
  | _ => none

/-- Line 139: `doc["data"]["timings"]["Fajr"]` converted to `const char*`. -/
def fajrTimeStr (doc : Json) : Option (List Char) :=
  (((doc.member "data".toList).member "timings".toList).member "Fajr".toList).asCString

/-- Largest `int` of the target. -/
def INT_MAX : Int := 2147483647

/-- Smallest `int` of the target. -/
def INT_MIN : Int := -2147483648

/-- C `isspace` in the "C" locale: space, and `\t \n \v \f \r` (codes 9 to 13). -/
def isspace (c : Char) : Bool :=
  decide (c.toNat = 32) || (decide (9 ≤ c.toNat) && decide (c.toNat ≤ 13))

/-- C `isdigit`: the codes 48 to 57. -/
def isdigit (c : Char) : Bool :=
  decide (48 ≤ c.toNat) && decide (c.toNat ≤ 57)

/-- The number a string of decimal digits denotes. -/
def digitValue (ds : List Char) : Nat :=
  ds.foldl (fun acc c => 10 * acc + (c.toNat - 48)) 0

/-- Outcome of one `%d` conversion of `sscanf`. -/
inductive Conv where
  | matchFailure : Conv
  | undefined : Conv
  | value : Int → List Char → Conv
deriving DecidableEq

/-- One `%d` directive (C11 7.21.6.2): white space is skipped, an optional sign
and then a non-empty run of decimal digits is consumed.  No digits is a
matching failure; a number that does not fit an `int` is undefined behaviour. -/
def scanInt (s : List Char) : Conv :=
  let s1 := s.dropWhile isspace
  let signed : Bool × List Char :=
    match s1 with
    | [] => (false, [])
    | c :: r => if c = '-' then (true, r) else if c = '+' then (false, r) else (false, c :: r)
  let ds := signed.2.takeWhile isdigit
  let rest := signed.2.dropWhile isdigit
  if ds.isEmpty then Conv.matchFailure
  else
    let v : Int := if signed.1 then -(digitValue ds : Int) else (digitValue ds : Int)
    if INT_MIN ≤ v ∧ v ≤ INT_MAX then Conv.value v rest else Conv.undefined

/-- Line 140: `sscanf(str, "%d:%d", &fajrHour, &fajrMinute)` on a non-null
`str`, as a function from the old pair to the new one.  `sscanf` stops at the
first directive that fails and keeps what it has stored so far; `none` is
undefined behaviour. -/
def sscanf_d_colon_d (str : List Char) (hour minute : Int) : Option (Int × Int) :=
  match scanInt str with
  | Conv.matchFailure => some (hour, minute)
  | Conv.undefined => none
  | Conv.value v1 rest =>
    match rest with
    | [] => some (v1, minute)
    | c :: rest2 =>
      if c = ':' then
        match scanInt rest2 with
        | Conv.matchFailure => some (v1, minute)
        | Conv.undefined => none
        | Conv.value v2 _ => some (v1, v2)
      else some (v1, minute)

/-! ## Fetching the schedule (lines 114-151) -/

/-- Lines 114-151.  `httpGET url` is the pair (`http.GET()`, `http.getString()`)
for a request to `url`; the code is positive for an HTTP status and not
positive for a transport failure.  `deserializeJson` is the decoder, `none`
when it reports an error.  The result is `none` when the C behaviour is
undefined: `sscanf` on the null pointer a missing field converts to, or a
number that does not fit an `int`. -/
def fetchPrayerTimes (city country : List Char) (httpGET : List Char → Int × List Char)
    (deserializeJson : List Char → Option Json) (g : Device) : Option Device :=
  let response := httpGET (apiUrl city country)
  let httpCode := response.1
  if httpCode > 0 then
    let payload := response.2
    match deserializeJson payload with
    | none => some g
    | some doc =>
      match fajrTimeStr doc with
      | none => none
      | some str =>
        match sscanf_d_colon_d str g.fajrHour g.fajrMinute with
        | none => none
        | some hm => some { g with fajrHour := hm.1, fajrMinute := hm.2 }
  else
    some g

/-! ## Main loop (lines 59-71) -/

/-- What one iteration of `loop` reads from the outside world. -/
structure LoopReadings where
  localTime : Option Tm
  millisAtOn : Nat
  millisAtOff : Nat
  timeinfo : Tm

/-- What one iteration of `loop` does: the device state afterwards (`none` when
undefined), the relay writes, whether `fetchPrayerTimes` was called, and the
total `delay` in milliseconds. -/
structure LoopOutcome where
  device : Option Device
  relayWrites : List Bool
  fetchCalled : Bool
  delayMs : Nat

/-- Lines 59-71.  `r.timeinfo` is the content of `timeinfo` after the call on
line 63, whose return value the source ignores. -/
def loop (city country : List Char) (httpGET : List Char → Int × List Char)
    (deserializeJson : List Char → Option Json) (r : LoopReadings) (g : Device) : LoopOutcome :=
  let tick := checkTimeAndControlLight r.localTime r.millisAtOn r.millisAtOff g
  if r.timeinfo.tm_hour = 0 ∧ r.timeinfo.tm_min = 1 then
    { device := fetchPrayerTimes city country httpGET deserializeJson tick.1,
      relayWrites := tick.2, fetchCalled := true, delayMs := 65000 + 10000 }
  else
    { device := some tick.1, relayWrites := tick.2, fetchCalled := false, delayMs := 10000 }

/-! ## Network bootstrap (lines 78-96) -/

/-- How `setupWiFi` ends: it returns connected, or it calls `ESP.restart()`.
`attempts` is the final value of `attempt`, the number of 500 ms delays. -/
inductive WiFiResult where
  | connected : Nat → WiFiResult
  | restart : Nat → WiFiResult
deriving DecidableEq, Repr

/-- The `while` loop of lines 84-92.  `status k` tells whether the call number
`k` (from 0) of `WiFi.status()` reports `WL_CONNECTED`; `attempt` is also the
number of calls made so far.  `none` when `fuel` iterations do not finish it. -/
def setupWiFiLoop (status : Nat → Bool) : Nat → Nat → Option WiFiResult
  | 0, _ => none
  | fuel + 1, attempt =>
    if status attempt then
      some (WiFiResult.connected attempt)
    else
      let attempt1 := attempt + 1
      if attempt1 > 20 then some (WiFiResult.restart attempt1)
      else setupWiFiLoop status fuel attempt1

/-- Lines 78-96. -/
def setupWiFi (status : Nat → Bool) (fuel : Nat) : Option WiFiResult :=
  setupWiFiLoop status fuel 0

/-- Total time spent in `delay(500)` by a run of `setupWiFi`. -/
def WiFiResult.delayMs : WiFiResult → Nat
  | WiFiResult.connected attempts => 500 * attempts
  | WiFiResult.restart attempts => 500 * attempts

/-- A response document whose `data.timings.Fajr` is the given text. -/
def timingsDoc (fajr : List Char) : Json :=
  Json.obj [("data".toList, Json.obj [("timings".toList, Json.obj [("Fajr".toList, Json.str fajr)])])]

/-! ## A civil day of ticks -/

/-- Milliseconds in a civil day. -/
def MS_PER_DAY : Nat := 86400000

/-- The instants at which one tick reads its clocks, in true milliseconds since
the civil midnight that starts the day: `atClock` for `getLocalTime` (line
156), `atOn` for `millis()` on line 176, `atOff` for `millis()` on line 181. -/
structure TickInstants where
  atClock : Nat
  atOn : Nat
  atOff : Nat

/-- The civil reading at `t` milliseconds after the midnight of `day`, for a
civil clock that runs in step with true time. -/
def civilAt (day : Tm) (t : Nat) : Tm :=
  { day with tm_hour := ((t / 3600000 : Nat) : Int),
             tm_min := ((t / 60000 % 60 : Nat) : Int),
             tm_sec := ((t / 1000 % 60 : Nat) : Int) }

/-- The `millis()` reading at `t` milliseconds after midnight: the 32-bit
counter stood at `phase` (any value) at midnight and wraps modulo `2 ^ 32`. -/
def millisAt (phase t : Nat) : Nat :=
  (phase + t) % ULONG_MOD

/-- The instants of a sequence of ticks are in program order, start at or after
`lo`, and all lie within the day. -/
def inOrder (lo : Nat) : List TickInstants → Prop
  | [] => True
  | k :: ks =>
    lo ≤ k.atClock ∧ k.atClock ≤ k.atOn ∧ k.atOn ≤ k.atOff ∧ k.atOff < MS_PER_DAY ∧
      inOrder k.atOff ks

/-- The ticks of one day run one after the other on a device whose cache no
fetch changes: the final state and all relay writes, in order. -/
def runTicks (phase : Nat) (day : Tm) : List TickInstants → Device → Device × List Bool
  | [], g => (g, [])
  | k :: ks, g =>
    let r := checkTimeAndControlLight (some (civilAt day k.atClock)) (millisAt phase k.atOn)
      (millisAt phase k.atOff) g
    let rs := runTicks phase day ks r.1
    (rs.1, r.2 ++ rs.2)

/-- After a firing in minute number `q` of the day: either the lamp is still On,
lit at an instant `t0` of that minute or later and no later than `lo`; or it is
Off again and the time `lo` is past that minute. -/
def cooling (phase q lo : Nat) (g : Device) : Prop :=
  (g.isLightOn = true ∧ ∃ t0, q * 60000 ≤ t0 ∧ t0 ≤ lo ∧ g.lightOnTime = millisAt phase t0) ∨
  (g.isLightOn = false ∧ (q + 1) * 60000 ≤ lo)

/-- A sample day: ticks at 04:29:50, 04:30:00, 04:30:10 and 04:30:50, then at
05:00:00 and 05:00:10, each reading its clocks within a few milliseconds. -/
def sampleDay : List TickInstants :=
  [⟨16190000, 16190001, 16190002⟩, ⟨16200000, 16200001, 16200002⟩,
   ⟨16210000, 16210001, 16210002⟩, ⟨16250000, 16250001, 16250002⟩,
   ⟨18000000, 18000000, 18000000⟩, ⟨18010000, 18010001, 18010002⟩]

/-! ## Theorems -/

theorem durationMs_eq : durationMs = 1800000 := by decide

theorem subUL_add (t0 d : Nat) (h0 : t0 < 2 ^ 32) (hd : d < 2 ^ 32) :
    subUL ((t0 + d) % 2 ^ 32) t0 = d := by
  unfold subUL ULONG_MOD
  omega

/-! ### The tick: switching on (C1), switching off (C2), no-op ticks (C8) -/

theorem lampOnLogic_of_on (timeinfo : Tm) (m : Nat) (g : Device) (h : g.isLightOn = true) :
    lampOnLogic timeinfo m g = (g, []) := by
  simp [lampOnLogic, h]

theorem lampOnLogic_of_off (timeinfo : Tm) (m : Nat) (g : Device) (h : g.isLightOn = false) :
    lampOnLogic timeinfo m g =
      if timeinfo.tm_hour = g.fajrHour ∧ timeinfo.tm_min = g.fajrMinute then
        ({ g with relay := HIGH, isLightOn := true, lightOnTime := m % ULONG_MOD }, [HIGH])
      else (g, []) := by
  simp only [lampOnLogic, h]
  by_cases h1 : timeinfo.tm_hour = g.fajrHour <;> by_cases h2 : timeinfo.tm_min = g.fajrMinute <;>
    simp [h1, h2]

theorem lampOffLogic_of_off (m : Nat) (g : Device) (h : g.isLightOn = false) :
    lampOffLogic m g = (g, []) := by
  simp [lampOffLogic, h]

theorem lampOffLogic_of_on (m : Nat) (g : Device) (h : g.isLightOn = true) :
    lampOffLogic m g =
      if durationMs ≤ subUL m g.lightOnTime then
        ({ g with relay := LOW, isLightOn := false }, [LOW])
      else (g, []) := by
  simp [lampOffLogic, h]

theorem fajrNow_some (t : Tm) (g : Device) :
    fajrNow (some t) g ↔ g.fajrHour ≠ -1 ∧ t.tm_hour = g.fajrHour ∧ t.tm_min = g.fajrMinute := by
  constructor
  · rintro ⟨t', ht, h⟩
    cases ht
    exact h
  · intro h
    exact ⟨t, rfl, h⟩

theorem tick_noop (g : Device) (localTime : Option Tm) (millisAtOn millisAtOff : Nat)
    (h : localTime = none ∨ g.fajrHour = -1) :
    checkTimeAndControlLight localTime millisAtOn millisAtOff g = (g, []) := by
  rcases h with h | h
  · subst h
    rfl
  · cases localTime with
    | none => rfl
    | some t => simp [checkTimeAndControlLight, h]

/-- A tick that starts with the lamp Off and is not at the firing condition
changes nothing and writes nothing. -/
theorem tick_off_idle (g : Device) (localTime : Option Tm) (millisAtOn millisAtOff : Nat)
    (hOff : g.isLightOn = false) (hNot : ¬ fajrNow localTime g) :
    checkTimeAndControlLight localTime millisAtOn millisAtOff g = (g, []) := by
  cases localTime with
  | none => rfl
  | some t =>
    rw [fajrNow_some] at hNot
    by_cases hc : g.fajrHour = -1
    · simp [checkTimeAndControlLight, hc]
    · have hne : ¬ (t.tm_hour = g.fajrHour ∧ t.tm_min = g.fajrMinute) := fun h => hNot ⟨hc, h⟩
      simp only [checkTimeAndControlLight, hc, if_false]
      rw [lampOnLogic_of_off t millisAtOn g hOff, if_neg hne]
      simp [lampOffLogic_of_off millisAtOff g hOff]

/-- A tick that starts with the lamp Off at the firing condition takes the ON
branch, then runs the OFF logic on the fresh `lightOnTime`. -/
theorem tick_off_fire (g : Device) (t : Tm) (millisAtOn millisAtOff : Nat)
    (hOff : g.isLightOn = false) (hNow : fajrNow (some t) g) :
    checkTimeAndControlLight (some t) millisAtOn millisAtOff g =
      if durationMs ≤ subUL millisAtOff (millisAtOn % ULONG_MOD) then
        ({ g with relay := LOW, isLightOn := false, lightOnTime := millisAtOn % ULONG_MOD },
          [HIGH, LOW])
      else
        ({ g with relay := HIGH, isLightOn := true, lightOnTime := millisAtOn % ULONG_MOD },
          [HIGH]) := by
  rw [fajrNow_some] at hNow
  obtain ⟨hc, hh⟩ := hNow
  simp only [checkTimeAndControlLight, hc, if_false]
  rw [lampOnLogic_of_off t millisAtOn g hOff, if_pos hh]
  rw [lampOffLogic_of_on _ _ rfl]
  by_cases hd : durationMs ≤ subUL millisAtOff (millisAtOn % ULONG_MOD)
  · simp [hd]
  · simp [hd]

/-- A tick that starts with the lamp On, a readable clock and a cached
schedule only runs the OFF logic. -/
theorem tick_on (g : Device) (t : Tm) (millisAtOn millisAtOff : Nat)
    (hOn : g.isLightOn = true) (hc : g.fajrHour ≠ -1) :
    checkTimeAndControlLight (some t) millisAtOn millisAtOff g =
      if durationMs ≤ subUL millisAtOff g.lightOnTime then
        ({ g with relay := LOW, isLightOn := false }, [LOW])
      else (g, []) := by
  simp only [checkTimeAndControlLight, hc, if_false]
  rw [lampOnLogic_of_on t millisAtOn g hOn]
  simp [lampOffLogic_of_on millisAtOff g hOn]

/-- C1: for every device state whose lamp is Off at the start of a tick of
`checkTimeAndControlLight`, the relay is written HIGH in that tick if and only
if the clock read succeeds, a Fajr time is cached (`fajrHour ≠ -1`) and the
clock's (hour, minute) equals the cached (`fajrHour`, `fajrMinute`); when the
OFF check of the same tick reads `millis()` less than the 30-minute duration
after the ON branch read it (as when both read the same instant), the tick ends
with `isLightOn = true`, the relay HIGH and `lightOnTime` equal to that millis
reading exactly under the same condition; and at any other clock reading the
tick leaves the whole state unchanged and writes nothing, whatever the previous
tick read. -/
theorem C1_off_lamp_switched_on_iff_fajr_minute (g : Device) (localTime : Option Tm)
    (millisAtOn millisAtOff : Nat) (hOff : g.isLightOn = false) :
    (HIGH ∈ (checkTimeAndControlLight localTime millisAtOn millisAtOff g).2 ↔
        fajrNow localTime g) ∧
    (millisAtOn < 2 ^ 32 → subUL millisAtOff millisAtOn < durationMs →
      (((checkTimeAndControlLight localTime millisAtOn millisAtOff g).1.isLightOn = true ∧
        (checkTimeAndControlLight localTime millisAtOn millisAtOff g).1.relay = HIGH ∧
        (checkTimeAndControlLight localTime millisAtOn millisAtOff g).1.lightOnTime = millisAtOn ∧
        (checkTimeAndControlLight localTime millisAtOn millisAtOff g).2 = [HIGH]) ↔
        fajrNow localTime g)) ∧
    (¬ fajrNow localTime g →
      checkTimeAndControlLight localTime millisAtOn millisAtOff g = (g, [])) := by
  by_cases hNow : fajrNow localTime g
  · obtain ⟨t, rfl, hrest⟩ := hNow
    have hNow : fajrNow (some t) g := ⟨t, rfl, hrest⟩
    have hfire := tick_off_fire g t millisAtOn millisAtOff hOff hNow
    refine ⟨?_, ?_, fun h => absurd hNow h⟩
    · rw [hfire]
      constructor
      · intro _
        exact hNow
      · intro _
        by_cases hd : durationMs ≤ subUL millisAtOff (millisAtOn % ULONG_MOD) <;> simp [hd]
    · intro h32 hNear
      have hmod : millisAtOn % ULONG_MOD = millisAtOn := Nat.mod_eq_of_lt h32
      rw [hfire, hmod, if_neg (Nat.not_le.mpr hNear)]
      simp [hNow]
  · have hidle := tick_off_idle g localTime millisAtOn millisAtOff hOff hNow
    refine ⟨?_, ?_, fun _ => hidle⟩
    · rw [hidle]
      simp [hNow]
    · intro _ _
      rw [hidle]
      simp [hNow, hOff]

/-- C1, at a concrete input: with Fajr cached as 04:30 and the lamp Off, the
tick at 04:30 switches the lamp On, and ticks at 04:00 and then 06:00 leave the
device untouched. -/
theorem C1_off_lamp_switched_on_iff_fajr_minute_witness :
    (({ fajrHour := 4, fajrMinute := 30, isLightOn := false, lightOnTime := 0,
        relay := LOW } : Device).isLightOn = false) ∧
    ((checkTimeAndControlLight (some (clockAt 4 30)) 777 777
        { fajrHour := 4, fajrMinute := 30, isLightOn := false, lightOnTime := 0,
          relay := LOW }).1.isLightOn = true ∧
     (checkTimeAndControlLight (some (clockAt 4 30)) 777 777
        { fajrHour := 4, fajrMinute := 30, isLightOn := false, lightOnTime := 0,
          relay := LOW }).1.relay = HIGH ∧
     (checkTimeAndControlLight (some (clockAt 4 30)) 777 777
        { fajrHour := 4, fajrMinute := 30, isLightOn := false, lightOnTime := 0,
          relay := LOW }).1.lightOnTime = 777 ∧
     (checkTimeAndControlLight (some (clockAt 4 30)) 777 777
        { fajrHour := 4, fajrMinute := 30, isLightOn := false, lightOnTime := 0,
          relay := LOW }).2 = [HIGH]) ∧
    checkTimeAndControlLight (some (clockAt 4 0)) 5 5
        { fajrHour := 4, fajrMinute := 30, isLightOn := false, lightOnTime := 0,
          relay := LOW } =
      ({ fajrHour := 4, fajrMinute := 30, isLightOn := false, lightOnTime := 0,
         relay := LOW }, []) ∧
    checkTimeAndControlLight (some (clockAt 6 0)) 7200005 7200005
        { fajrHour := 4, fajrMinute := 30, isLightOn := false, lightOnTime := 0,
          relay := LOW } =
      ({ fajrHour := 4, fajrMinute := 30, isLightOn := false, lightOnTime := 0,
         relay := LOW }, []) :=
  ⟨rfl,
    ((C1_off_lamp_switched_on_iff_fajr_minute
      { fajrHour := 4, fajrMinute := 30, isLightOn := false, lightOnTime := 0, relay := LOW }
      (some (clockAt 4 30)) 777 777 rfl).2.1 (by decide) (by decide)).mpr
        ⟨clockAt 4 30, rfl, by decide, rfl, rfl⟩,
    (C1_off_lamp_switched_on_iff_fajr_minute
      { fajrHour := 4, fajrMinute := 30, isLightOn := false, lightOnTime := 0, relay := LOW }
      (some (clockAt 4 0)) 5 5 rfl).2.2 (by
        rw [fajrNow_some]
        decide),
    (C1_off_lamp_switched_on_iff_fajr_minute
      { fajrHour := 4, fajrMinute := 30, isLightOn := false, lightOnTime := 0, relay := LOW }
      (some (clockAt 6 0)) 7200005 7200005 rfl).2.2 (by
        rw [fajrNow_some]
        decide)⟩

/-- C2: for every tick of `checkTimeAndControlLight` that starts with the lamp
On, a readable clock and a cached schedule, every 32-bit `lightOnTime = t0` and
every true elapsed time `d < 2 ^ 32` ms (so the OFF check reads
`(t0 + d) mod 2 ^ 32`): the lamp is switched Off (relay written LOW,
`isLightOn = false`) if and only if `d ≥ durationMs = 1,800,000`; otherwise the
tick changes nothing; and the outcome is the same for every civil time the
clock reports. -/
theorem C2_on_lamp_switched_off_iff_duration_elapsed (g : Device) (t : Tm)
    (millisAtOn t0 d : Nat) (hOn : g.isLightOn = true) (hc : g.fajrHour ≠ -1)
    (hT0 : g.lightOnTime = t0) (h0 : t0 < 2 ^ 32) (hd : d < 2 ^ 32) :
    durationMs = 1800000 ∧
    (((checkTimeAndControlLight (some t) millisAtOn ((t0 + d) % 2 ^ 32) g).1.isLightOn = false ∧
      (checkTimeAndControlLight (some t) millisAtOn ((t0 + d) % 2 ^ 32) g).1.relay = LOW ∧
      (checkTimeAndControlLight (some t) millisAtOn ((t0 + d) % 2 ^ 32) g).2 = [LOW]) ↔
      1800000 ≤ d) ∧
    (d < 1800000 →
      checkTimeAndControlLight (some t) millisAtOn ((t0 + d) % 2 ^ 32) g = (g, [])) ∧
    (∀ (t2 : Tm) (m2 : Nat),
      checkTimeAndControlLight (some t2) m2 ((t0 + d) % 2 ^ 32) g =
        checkTimeAndControlLight (some t) millisAtOn ((t0 + d) % 2 ^ 32) g) := by
  have hel : subUL ((t0 + d) % 2 ^ 32) g.lightOnTime = d := by
    rw [hT0]
    exact subUL_add t0 d h0 hd
  have htick : ∀ (t2 : Tm) (m2 : Nat),
      checkTimeAndControlLight (some t2) m2 ((t0 + d) % 2 ^ 32) g =
        if 1800000 ≤ d then ({ g with relay := LOW, isLightOn := false }, [LOW])
        else (g, []) := by
    intro t2 m2
    rw [tick_on g t2 m2 _ hOn hc, hel, durationMs_eq]
  refine ⟨durationMs_eq, ?_, ?_, ?_⟩
  · rw [htick]
    by_cases hge : 1800000 ≤ d
    · simp [hge]
    · simp [hge, hOn]
  · intro hlt
    rw [htick, if_neg (Nat.not_le.mpr hlt)]
  · intro t2 m2
    rw [htick, htick]

/-- C2, at a concrete input: the lamp was lit at `millis() = 4294000000`; after
1,800,000 ms the counter has wrapped to 832704 and the tick switches the lamp
Off, whatever the civil clock says. -/
theorem C2_on_lamp_switched_off_iff_duration_elapsed_witness :
    (checkTimeAndControlLight (some (clockAt 4 55)) 0 832704
        { fajrHour := 5, fajrMinute := 0, isLightOn := true, lightOnTime := 4294000000,
          relay := HIGH }).1.isLightOn = false :=
  (((C2_on_lamp_switched_off_iff_duration_elapsed
      { fajrHour := 5, fajrMinute := 0, isLightOn := true, lightOnTime := 4294000000,
        relay := HIGH }
      (clockAt 4 55) 0 4294000000 1800000 rfl (by decide) rfl (by decide) (by decide)).2.1).mpr
        (le_refl _)).1

/-- C8: for every device state and every pair of millis readings, if the civil
clock read fails or no schedule has been fetched yet (`fajrHour = -1`), a tick
of `checkTimeAndControlLight` returns the state unchanged (`isLightOn`,
`lightOnTime`, relay level, `fajrHour`, `fajrMinute`) and issues no relay
write. -/
theorem C8_tick_noop_without_clock_or_schedule (g : Device) (localTime : Option Tm)
    (millisAtOn millisAtOff : Nat) (h : localTime = none ∨ g.fajrHour = -1) :
    checkTimeAndControlLight localTime millisAtOn millisAtOff g = (g, []) := by
  rcases h with h | h
  · subst h
    rfl
  · cases localTime with
    | none => rfl
    | some t => simp [checkTimeAndControlLight, h]

/-- C8, at a concrete input: the freshly booted device (no schedule) at a
readable 04:30, and a lit lamp whose clock read fails. -/
theorem C8_tick_noop_without_clock_or_schedule_witness :
    checkTimeAndControlLight (some (clockAt 4 30)) 10 10 Device.boot = (Device.boot, []) ∧
    checkTimeAndControlLight none 4000000 4000000
        { fajrHour := 4, fajrMinute := 30, isLightOn := true, lightOnTime := 0,
          relay := HIGH } =
      ({ fajrHour := 4, fajrMinute := 30, isLightOn := true, lightOnTime := 0,
         relay := HIGH }, []) :=
  ⟨C8_tick_noop_without_clock_or_schedule Device.boot (some (clockAt 4 30)) 10 10 (Or.inr rfl),
   C8_tick_noop_without_clock_or_schedule _ none 4000000 4000000 (Or.inl rfl)⟩

/-! ### Request URL (C7) -/

theorem replaceGo_space (rep s : List Char) :
    replaceGo [' '] rep 0 s = (s.map fun c => if c = ' ' then rep else [c]).flatten := by
  induction s with
  | nil => rfl
  | cons c cs ih =>
    by_cases hc : c = ' '
    · subst hc
      simp [replaceGo, List.isPrefixOf, ih]
    · have hne : (' ' == c) = false := by
        rw [beq_eq_false_iff_ne]
        exact fun h => hc h.symm
      simp [replaceGo, List.isPrefixOf, ih, hc, hne]

theorem encodeSpaces_eq_join (s : List Char) :
    encodeSpaces s = (s.map fun c => if c = ' ' then ['%', '2', '0'] else [c]).flatten := by
  induction s with
  | nil => rfl
  | cons c cs ih => simp [encodeSpaces, ih]

theorem String_replace_space (s : List Char) :
    String_replace s " ".toList "%20".toList = encodeSpaces s := by
  have h1 : " ".toList = [' '] := rfl
  have h2 : "%20".toList = ['%', '2', '0'] := rfl
  rw [h1, h2, encodeSpaces_eq_join, ← replaceGo_space]
  rfl

theorem space_not_mem_encodeSpaces (s : List Char) : ' ' ∉ encodeSpaces s := by
  induction s with
  | nil => simp [encodeSpaces]
  | cons c cs ih =>
    by_cases hc : c = ' '
    · subst hc
      simp only [encodeSpaces, if_true, List.mem_append, not_or]
      exact ⟨by decide, ih⟩
    · simp only [encodeSpaces, hc, if_false, List.mem_append, List.mem_singleton, not_or]
      exact ⟨fun h => hc h.symm, ih⟩

/-- C7: for every city and country string, the request URL built by
`fetchPrayerTimes` is `http://api.aladhan.com/v1/timingsByCity?city=` + C +
`&country=` + K + `&method=2`, where C and K are the city and the country with
every space replaced by `%20` and every other character kept in order; C and K
contain no space; and for city `New York`, country `united states`, the URL
contains `city=New%20York&country=united%20states`. -/
theorem C7_request_url_percent_encodes_spaces (city country : List Char) :
    apiUrl city country =
      "http://api.aladhan.com/v1/timingsByCity?city=".toList ++ encodeSpaces city
        ++ "&country=".toList ++ encodeSpaces country ++ "&method=2".toList ∧
    ' ' ∉ encodeSpaces city ∧ ' ' ∉ encodeSpaces country ∧
    apiUrl "New York".toList "united states".toList =
      "http://api.aladhan.com/v1/timingsByCity?".toList
        ++ "city=New%20York&country=united%20states".toList ++ "&method=2".toList := by
  refine ⟨?_, space_not_mem_encodeSpaces city, space_not_mem_encodeSpaces country, by decide⟩
  simp only [apiUrl, String_replace_space]

/-! ### Fetching the schedule (C5) and the stale schedule (C3) -/

theorem fetchPrayerTimes_of_failure (city country : List Char)
    (httpGET : List Char → Int × List Char) (deserializeJson : List Char → Option Json)
    (g : Device) (h : (httpGET (apiUrl city country)).1 ≤ 0) :
    fetchPrayerTimes city country httpGET deserializeJson g = some g := by
  have hn : ¬ (httpGET (apiUrl city country)).1 > 0 := not_lt.mpr h
  simp [fetchPrayerTimes, hn]

/-- C5, refuted as stated: the GET returns status 500 with a body that decodes
to a document whose `data.timings.Fajr` is `04:45`; `fetchPrayerTimes` then
overwrites the unset cache (-1, -1) with (4, 45). -/
theorem C5_counterexample_status_500_updates_cache :
    ¬ ((200 : Int) ≤ 500 ∧ (500 : Int) ≤ 299) ∧
    fetchPrayerTimes "Safi".toList "morocco".toList
        (fun _ => (500, "\x7b\"data\":\x7b\"timings\":\x7b\"Fajr\":\"04:45\"\x7d\x7d\x7d".toList))
        (fun _ => some (timingsDoc "04:45".toList)) Device.boot =
      some { fajrHour := 4, fajrMinute := 45, isLightOn := false, lightOnTime := 0,
             relay := LOW } ∧
    (Device.boot.fajrHour, Device.boot.fajrMinute) ≠ ((4 : Int), (45 : Int)) := by
  decide

/-- C5, amended: for every result of the HTTP GET that is a transport failure
(`httpCode ≤ 0`) and every response body, `fetchPrayerTimes` leaves the whole
device state, and so the cache (`fajrHour`, `fajrMinute`), exactly as it was;
for a positive code the status class is not examined: the body is decoded and
stored exactly as for status 200. -/
theorem C5_transport_failure_leaves_cache (city country : List Char)
    (deserializeJson : List Char → Option Json) (g : Device) :
    (∀ httpGET : List Char → Int × List Char, (httpGET (apiUrl city country)).1 ≤ 0 →
      fetchPrayerTimes city country httpGET deserializeJson g = some g) ∧
    (∀ (httpCode : Int) (payload : List Char), 0 < httpCode →
      fetchPrayerTimes city country (fun _ => (httpCode, payload)) deserializeJson g =
        fetchPrayerTimes city country (fun _ => (200, payload)) deserializeJson g) := by
  constructor
  · intro httpGET h
    exact fetchPrayerTimes_of_failure city country httpGET deserializeJson g h
  · intro httpCode payload h
    have h1 : httpCode > 0 := h
    simp [fetchPrayerTimes, h1]

/-- C5 amended, at a concrete input: a connection failure (code -1) leaves a
cached 04:30 in place, whatever the body would decode to. -/
theorem C5_transport_failure_leaves_cache_witness :
    fetchPrayerTimes "Safi".toList "morocco".toList (fun _ => (-1, "05:00".toList))
        (fun _ => some (timingsDoc "05:00".toList))
        { fajrHour := 4, fajrMinute := 30, isLightOn := false, lightOnTime := 0, relay := LOW } =
      some { fajrHour := 4, fajrMinute := 30, isLightOn := false, lightOnTime := 0,
             relay := LOW } :=
  (C5_transport_failure_leaves_cache "Safi".toList "morocco".toList
    (fun _ => some (timingsDoc "05:00".toList))
    { fajrHour := 4, fajrMinute := 30, isLightOn := false, lightOnTime := 0, relay := LOW }).1
    (fun _ => (-1, "05:00".toList)) (by decide)

/-- C3, refuted as stated: Fajr 04:30 is fetched on day 1; the midnight fetch
of day 2 fails (code -1) and leaves it in place; the tick at 04:30 of day 2
switches the lamp On although nothing was fetched for day 2. -/
theorem C3_counterexample_stale_schedule_fires :
    fetchPrayerTimes "Safi".toList "morocco".toList (fun _ => (200, []))
        (fun _ => some (timingsDoc "04:30".toList)) Device.boot =
      some { fajrHour := 4, fajrMinute := 30, isLightOn := false, lightOnTime := 0,
             relay := LOW } ∧
    fetchPrayerTimes "Safi".toList "morocco".toList (fun _ => (-1, []))
        (fun _ => none)
        { fajrHour := 4, fajrMinute := 30, isLightOn := false, lightOnTime := 0, relay := LOW } =
      some { fajrHour := 4, fajrMinute := 30, isLightOn := false, lightOnTime := 0,
             relay := LOW } ∧
    checkTimeAndControlLight
        (some { tm_sec := 10, tm_min := 30, tm_hour := 4, tm_mday := 2, tm_mon := 0,
                tm_year := 126 })
        101670000 101670000
        { fajrHour := 4, fajrMinute := 30, isLightOn := false, lightOnTime := 0, relay := LOW } =
      ({ fajrHour := 4, fajrMinute := 30, isLightOn := true, lightOnTime := 101670000,
         relay := HIGH }, [HIGH]) := by
  decide

/-- C3, amended: the firmware keeps no record of the date a Fajr time was
fetched for.  A tick never switches the lamp On while no Fajr time has ever
been cached (`fajrHour = -1`); the result of a tick does not depend on the
date the clock reports; and after a failed fetch an Off lamp is still switched
On by the tick whose hour and minute equal the cached ones, on whatever day. -/
theorem C3_stale_schedule_still_fires (g : Device) (millisAtOn millisAtOff : Nat) :
    (g.fajrHour = -1 → ∀ localTime : Option Tm,
      checkTimeAndControlLight localTime millisAtOn millisAtOff g = (g, [])) ∧
    (∀ t1 t2 : Tm, t1.tm_hour = t2.tm_hour → t1.tm_min = t2.tm_min →
      checkTimeAndControlLight (some t1) millisAtOn millisAtOff g =
        checkTimeAndControlLight (some t2) millisAtOn millisAtOff g) ∧
    (g.fajrHour ≠ -1 → g.isLightOn = false →
      ∀ (city country : List Char) (httpGET : List Char → Int × List Char)
        (deserializeJson : List Char → Option Json) (t : Tm),
        (httpGET (apiUrl city country)).1 ≤ 0 →
        t.tm_hour = g.fajrHour → t.tm_min = g.fajrMinute →
        ∃ g1, fetchPrayerTimes city country httpGET deserializeJson g = some g1 ∧
          HIGH ∈ (checkTimeAndControlLight (some t) millisAtOn millisAtOff g1).2) := by
  refine ⟨?_, ?_, ?_⟩
  · intro h localTime
    cases localTime with
    | none => rfl
    | some t => simp [checkTimeAndControlLight, h]
  · intro t1 t2 hh hm
    simp only [checkTimeAndControlLight, lampOnLogic, hh, hm]
  · intro hc hOff city country httpGET deserializeJson t hfail hh hm
    refine ⟨g, fetchPrayerTimes_of_failure city country httpGET deserializeJson g hfail, ?_⟩
    rw [tick_off_fire g t millisAtOn millisAtOff hOff ⟨t, rfl, hc, hh, hm⟩]
    by_cases hd : durationMs ≤ subUL millisAtOff (millisAtOn % ULONG_MOD) <;> simp [hd]

/-- C3 amended, at a concrete input: a cached 04:30 survives a failed fetch and
fires at 04:30 of the 2nd of the month. -/
theorem C3_stale_schedule_still_fires_witness :
    ∃ g1, fetchPrayerTimes [] [] (fun _ => (-1, [])) (fun _ => none)
        { fajrHour := 4, fajrMinute := 30, isLightOn := false, lightOnTime := 0,
          relay := LOW } = some g1 ∧
      HIGH ∈ (checkTimeAndControlLight
        (some { tm_sec := 10, tm_min := 30, tm_hour := 4, tm_mday := 2, tm_mon := 0,
                tm_year := 126 }) 5 5 g1).2 :=
  (C3_stale_schedule_still_fires
    { fajrHour := 4, fajrMinute := 30, isLightOn := false, lightOnTime := 0, relay := LOW }
    5 5).2.2 (by decide) rfl [] [] (fun _ => (-1, [])) (fun _ => none)
    { tm_sec := 10, tm_min := 30, tm_hour := 4, tm_mday := 2, tm_mon := 0, tm_year := 126 }
    (by decide) rfl rfl

/-! ### Daily refresh (C9) -/

/-- C9, refuted as stated: an iteration of `loop` whose local time reads
00:00:30, inside the window 00:00-00:01, does not call `fetchPrayerTimes`. -/
theorem C9_counterexample_no_fetch_at_00_00_30 :
    (loop "Safi".toList "morocco".toList (fun _ => (200, []))
        (fun _ => some (timingsDoc "04:45".toList))
        { localTime := some { tm_sec := 30, tm_min := 0, tm_hour := 0, tm_mday := 2,
                              tm_mon := 0, tm_year := 126 },
          millisAtOn := 0, millisAtOff := 0,
          timeinfo := { tm_sec := 30, tm_min := 0, tm_hour := 0, tm_mday := 2, tm_mon := 0,
                        tm_year := 126 } }
        Device.boot).fetchCalled = false ∧
    (loop "Safi".toList "morocco".toList (fun _ => (200, []))
        (fun _ => some (timingsDoc "04:45".toList))
        { localTime := some { tm_sec := 30, tm_min := 0, tm_hour := 0, tm_mday := 2,
                              tm_mon := 0, tm_year := 126 },
          millisAtOn := 0, millisAtOff := 0,
          timeinfo := { tm_sec := 30, tm_min := 0, tm_hour := 0, tm_mday := 2, tm_mon := 0,
                        tm_year := 126 } }
        Device.boot).device = some Device.boot := by
  decide

/-- C9, amended: an iteration of `loop` calls `fetchPrayerTimes` if and only if
the local time it reads has hour 0 and minute 1 (00:01:00 to 00:01:59); it then
runs the fetch on the state the tick left and delays 75 s in all; at any other
reading, 00:00 included, it does not fetch and delays 10 s. -/
theorem C9_loop_fetches_iff_minute_00_01 (city country : List Char)
    (httpGET : List Char → Int × List Char) (deserializeJson : List Char → Option Json)
    (r : LoopReadings) (g : Device) :
    ((loop city country httpGET deserializeJson r g).fetchCalled = true ↔
      (r.timeinfo.tm_hour = 0 ∧ r.timeinfo.tm_min = 1)) ∧
    ((r.timeinfo.tm_hour = 0 ∧ r.timeinfo.tm_min = 1) →
      (loop city country httpGET deserializeJson r g).device =
        fetchPrayerTimes city country httpGET deserializeJson
          (checkTimeAndControlLight r.localTime r.millisAtOn r.millisAtOff g).1 ∧
      (loop city country httpGET deserializeJson r g).delayMs = 75000) ∧
    (¬ (r.timeinfo.tm_hour = 0 ∧ r.timeinfo.tm_min = 1) →
      (loop city country httpGET deserializeJson r g).device =
        some (checkTimeAndControlLight r.localTime r.millisAtOn r.millisAtOff g).1 ∧
      (loop city country httpGET deserializeJson r g).delayMs = 10000) := by
  by_cases h : r.timeinfo.tm_hour = 0 ∧ r.timeinfo.tm_min = 1
  · simp [loop, h]
  · simp [loop, h]

/-- C9 amended, at a concrete input: the iteration that reads 00:01:05 fetches
and stores the new Fajr time. -/
theorem C9_loop_fetches_iff_minute_00_01_witness :
    (loop "Safi".toList "morocco".toList (fun _ => (200, []))
        (fun _ => some (timingsDoc "04:45".toList))
        { localTime := none, millisAtOn := 0, millisAtOff := 0,
          timeinfo := { tm_sec := 5, tm_min := 1, tm_hour := 0, tm_mday := 2, tm_mon := 0,
                        tm_year := 126 } }
        Device.boot).fetchCalled = true :=
  (C9_loop_fetches_iff_minute_00_01 "Safi".toList "morocco".toList (fun _ => (200, []))
    (fun _ => some (timingsDoc "04:45".toList))
    { localTime := none, millisAtOn := 0, millisAtOff := 0,
      timeinfo := { tm_sec := 5, tm_min := 1, tm_hour := 0, tm_mday := 2, tm_mon := 0,
                    tm_year := 126 } }
    Device.boot).1.mpr ⟨rfl, rfl⟩

/-! ### Network bootstrap (C10) -/

theorem setupWiFiLoop_connected (status : Nat → Bool) (n : Nat) (hn : n ≤ 20)
    (hconn : status n = true) :
    ∀ (fuel attempt : Nat), attempt ≤ n → n - attempt < fuel →
      (∀ k, attempt ≤ k → k < n → status k = false) →
      setupWiFiLoop status fuel attempt = some (WiFiResult.connected n) := by
  intro fuel
  induction fuel with
  | zero =>
    intro attempt _ hf _
    omega
  | succ fuel ih =>
    intro attempt ha hf hfail
    by_cases hEq : attempt = n
    · subst hEq
      simp [setupWiFiLoop, hconn]
    · have hlt : attempt < n := lt_of_le_of_ne ha hEq
      have hs : status attempt = false := hfail attempt (le_refl _) hlt
      have h20 : ¬ attempt + 1 > 20 := by omega
      simp only [setupWiFiLoop, hs, h20, if_false, Bool.false_eq_true]
      exact ih (attempt + 1) (by omega) (by omega) (fun k hk1 hk2 => hfail k (by omega) hk2)

theorem setupWiFiLoop_restart (status : Nat → Bool)
    (hfail : ∀ k, k ≤ 20 → status k = false) :
    ∀ (fuel attempt : Nat), attempt ≤ 20 → 20 - attempt < fuel →
      setupWiFiLoop status fuel attempt = some (WiFiResult.restart 21) := by
  intro fuel
  induction fuel with
  | zero =>
    intro attempt _ hf
    omega
  | succ fuel ih =>
    intro attempt ha hf
    have hs : status attempt = false := hfail attempt ha
    by_cases hEq : attempt = 20
    · subst hEq
      simp [setupWiFiLoop, hs]
    · have h20 : ¬ attempt + 1 > 20 := by omega
      simp only [setupWiFiLoop, hs, h20, if_false, Bool.false_eq_true]
      exact ih (attempt + 1) (by omega) (by omega)

theorem setupWiFi_returns (status : Nat → Bool) (fuel : Nat) (hfuel : 21 ≤ fuel) :
    ∃ r, setupWiFi status fuel = some r := by
  by_cases h : ∃ n, n ≤ 20 ∧ status n = true
  · have hmin := Nat.find_spec h
    refine ⟨_, setupWiFiLoop_connected status (Nat.find h) hmin.1 hmin.2 fuel 0
      (Nat.zero_le _) (by omega) ?_⟩
    intro k _ hk
    have hno := Nat.find_min h hk
    have hk20 : k ≤ 20 := by omega
    cases hs : status k with
    | false => rfl
    | true => exact absurd ⟨hk20, hs⟩ hno
  · have hfail : ∀ k, k ≤ 20 → status k = false := by
      intro k hk
      cases hs : status k with
      | false => rfl
      | true => exact absurd ⟨k, hk, hs⟩ h
    exact ⟨_, setupWiFiLoop_restart status hfail fuel 0 (by omega) (by omega)⟩

/-- C10, refuted as stated: the first 20 status polls report not-connected and
the 21st reports connected; `setupWiFi` returns connected after 20 delays and
requests no restart. -/
theorem C10_counterexample_twenty_failures_no_restart :
    (∀ k, k < 20 → (fun k : Nat => decide (20 ≤ k)) k = false) ∧
    setupWiFi (fun k => decide (20 ≤ k)) 21 = some (WiFiResult.connected 20) := by
  constructor
  · intro k hk
    simp [hk]
  · decide

/-- C10, amended: for every sequence of Wi-Fi status readings seen by
`setupWiFi`, the loop ends within 21 iterations; if the
first 21 status polls, each followed by a 500 ms delay, all report
not-connected, `setupWiFi` requests a restart at that point (`attempt = 21`,
10.5 s of delay); and if poll number `n ≤ 20` (from 0) is the first to report
connected, `setupWiFi` returns after `n` delays without requesting a restart. -/
theorem C10_setupWiFi_restarts_after_21_failures (status : Nat → Bool) (fuel : Nat)
    (hfuel : 21 ≤ fuel) :
    (∃ r, setupWiFi status fuel = some r) ∧
    ((∀ k, k ≤ 20 → status k = false) →
      setupWiFi status fuel = some (WiFiResult.restart 21) ∧
      (WiFiResult.restart 21).delayMs = 10500) ∧
    (∀ n, n ≤ 20 → status n = true → (∀ k, k < n → status k = false) →
      setupWiFi status fuel = some (WiFiResult.connected n)) := by
  refine ⟨setupWiFi_returns status fuel hfuel, ?_, ?_⟩
  · intro hfail
    exact ⟨setupWiFiLoop_restart status hfail fuel 0 (by omega) (by omega), rfl⟩
  · intro n hn hconn hfail
    exact setupWiFiLoop_connected status n hn hconn fuel 0 (by omega) (by omega)
      (fun k _ hk => hfail k hk)

/-- C10 amended, at a concrete input: a network that never answers leads to the
restart after 21 polls. -/
theorem C10_setupWiFi_restarts_after_21_failures_witness :
    setupWiFi (fun _ => false) 21 = some (WiFiResult.restart 21) :=
  ((C10_setupWiFi_restarts_after_21_failures (fun _ => false) 21 (le_refl _)).2.1
    (fun _ _ => rfl)).1

/-! ### Response decoding (C6) -/

theorem isdigit_not_isspace (c : Char) (h : isdigit c = true) : isspace c = false := by
  simp only [isdigit, Bool.and_eq_true, decide_eq_true_eq] at h
  simp only [isspace, Bool.or_eq_false_iff, Bool.and_eq_false_iff, decide_eq_false_iff_not]
  omega

theorem isdigit_ne_minus (c : Char) (h : isdigit c = true) : c ≠ '-' := by
  intro hc
  subst hc
  revert h
  decide

theorem isdigit_ne_plus (c : Char) (h : isdigit c = true) : c ≠ '+' := by
  intro hc
  subst hc
  revert h
  decide

/-- A run of digits followed by a list that does not start with a digit is
split at the end of the run. -/
theorem takeWhile_isdigit_append (ds rest : List Char) (hds : ∀ c ∈ ds, isdigit c = true)
    (hrest : ∀ c r, rest = c :: r → isdigit c = false) :
    (ds ++ rest).takeWhile isdigit = ds ∧ (ds ++ rest).dropWhile isdigit = rest := by
  induction ds with
  | nil =>
    cases rest with
    | nil => simp
    | cons c r => simp [List.takeWhile, List.dropWhile, hrest c r rfl]
  | cons d ds ih =>
    have hd : isdigit d = true := hds d (List.mem_cons_self _ _)
    have ih2 := ih (fun c hc => hds c (List.mem_cons_of_mem _ hc))
    simp [List.takeWhile, List.dropWhile, hd, ih2.1, ih2.2]

theorem scanInt_digits (ds rest : List Char) (hne : ds ≠ [])
    (hds : ∀ c ∈ ds, isdigit c = true) (hrest : ∀ c r, rest = c :: r → isdigit c = false)
    (hmax : (digitValue ds : Int) ≤ INT_MAX) :
    scanInt (ds ++ rest) = Conv.value (digitValue ds) rest := by
  cases ds with
  | nil => exact absurd rfl hne
  | cons d ds =>
    have hd : isdigit d = true := hds d (List.mem_cons_self _ _)
    have hsp := isdigit_not_isspace d hd
    have hm := isdigit_ne_minus d hd
    have hp := isdigit_ne_plus d hd
    obtain ⟨htake, hdrop⟩ := takeWhile_isdigit_append (d :: ds) rest hds hrest
    have hmin : INT_MIN ≤ (digitValue (d :: ds) : Int) := by
      have : (0 : Int) ≤ (digitValue (d :: ds) : Int) := Int.natCast_nonneg _
      unfold INT_MIN
      omega
    have hdw : List.dropWhile isspace (d :: ds ++ rest) = d :: ds ++ rest := by
      simp [List.dropWhile, hsp]
    simp only [scanInt, hdw]
    simp only [List.cons_append, hm, hp, if_false]
    rw [← List.cons_append, htake, hdrop]
    simp [hmin, hmax]

theorem scanInt_no_number (s : List Char)
    (h : ∀ c r, s = c :: r → isspace c = false ∧ isdigit c = false ∧ c ≠ '-' ∧ c ≠ '+') :
    scanInt s = Conv.matchFailure := by
  cases s with
  | nil => simp [scanInt]
  | cons c r =>
    obtain ⟨hsp, hd, hm, hp⟩ := h c r rfl
    simp [scanInt, List.dropWhile, List.takeWhile, hsp, hd, hm, hp]

theorem fetchPrayerTimes_of_string (city country : List Char)
    (httpGET : List Char → Int × List Char) (deserializeJson : List Char → Option Json)
    (g : Device) (doc : Json) (str : List Char)
    (hcode : 0 < (httpGET (apiUrl city country)).1)
    (hdoc : deserializeJson (httpGET (apiUrl city country)).2 = some doc)
    (hstr : fajrTimeStr doc = some str) :
    fetchPrayerTimes city country httpGET deserializeJson g =
      (sscanf_d_colon_d str g.fajrHour g.fajrMinute).map
        (fun hm => { g with fajrHour := hm.1, fajrMinute := hm.2 }) := by
  have h1 : (httpGET (apiUrl city country)).1 > 0 := hcode
  simp only [fetchPrayerTimes, h1, if_true, hdoc, hstr]
  cases sscanf_d_colon_d str g.fajrHour g.fajrMinute <;> rfl

/-- C6, refuted as stated: a decoded response whose `data.timings.Fajr` is
`25:99` is not rejected, the cache becomes the out-of-range (25, 99); and for
`0430`, which has no separator, `fajrHour` becomes 430 while `fajrMinute`
keeps its old value. -/
theorem C6_counterexample_out_of_range_time_stored :
    fetchPrayerTimes "Safi".toList "morocco".toList (fun _ => (200, []))
        (fun _ => some (timingsDoc "25:99".toList)) Device.boot =
      some { fajrHour := 25, fajrMinute := 99, isLightOn := false, lightOnTime := 0,
             relay := LOW } ∧
    ¬ ((25 : Int) ≤ 23) ∧ ¬ ((99 : Int) ≤ 59) ∧
    fetchPrayerTimes "Safi".toList "morocco".toList (fun _ => (200, []))
        (fun _ => some (timingsDoc "0430".toList))
        { fajrHour := 5, fajrMinute := 12, isLightOn := false, lightOnTime := 0, relay := LOW } =
      some { fajrHour := 430, fajrMinute := 12, isLightOn := false, lightOnTime := 0,
             relay := LOW } := by
  decide

/-- C6, amended: for every successfully decoded response whose
`data.timings.Fajr` is a string, `fetchPrayerTimes` stores what
`sscanf("%d:%d")` converts, without a range check.  A string of two decimal
numbers (each fitting an `int`) separated by `:` sets `fajrHour` and
`fajrMinute` to these numbers whatever their range, so a well-formed in-range
`HH:MM` leaves an in-range time of day in the cache; a string that starts
with a decimal number not followed by `:` sets `fajrHour` to it and leaves
`fajrMinute`; a string that is empty or starts with neither white space, a
sign nor a digit leaves both unchanged.  Nothing but `fajrHour` and
`fajrMinute` is changed. -/
theorem C6_fetch_stores_scanned_numbers_unchecked (city country : List Char)
    (httpGET : List Char → Int × List Char) (deserializeJson : List Char → Option Json)
    (g : Device) (doc : Json) (str : List Char)
    (hcode : 0 < (httpGET (apiUrl city country)).1)
    (hdoc : deserializeJson (httpGET (apiUrl city country)).2 = some doc)
    (hstr : fajrTimeStr doc = some str) :
    (∀ ds1 ds2 rest : List Char, str = ds1 ++ ':' :: (ds2 ++ rest) →
      ds1 ≠ [] → ds2 ≠ [] → (∀ c ∈ ds1, isdigit c = true) → (∀ c ∈ ds2, isdigit c = true) →
      (∀ c r, rest = c :: r → isdigit c = false) →
      (digitValue ds1 : Int) ≤ INT_MAX → (digitValue ds2 : Int) ≤ INT_MAX →
      fetchPrayerTimes city country httpGET deserializeJson g =
        some { g with fajrHour := digitValue ds1, fajrMinute := digitValue ds2 } ∧
      (digitValue ds1 ≤ 23 → digitValue ds2 ≤ 59 →
        ∃ g1, fetchPrayerTimes city country httpGET deserializeJson g = some g1 ∧
          0 ≤ g1.fajrHour ∧ g1.fajrHour ≤ 23 ∧ 0 ≤ g1.fajrMinute ∧ g1.fajrMinute ≤ 59)) ∧
    (∀ ds1 rest : List Char, str = ds1 ++ rest →
      ds1 ≠ [] → (∀ c ∈ ds1, isdigit c = true) →
      (∀ c r, rest = c :: r → isdigit c = false ∧ c ≠ ':') →
      (digitValue ds1 : Int) ≤ INT_MAX →
      fetchPrayerTimes city country httpGET deserializeJson g =
        some { g with fajrHour := digitValue ds1 }) ∧
    ((∀ c r, str = c :: r → isspace c = false ∧ isdigit c = false ∧ c ≠ '-' ∧ c ≠ '+') →
      fetchPrayerTimes city country httpGET deserializeJson g = some g) := by
  have hfetch := fetchPrayerTimes_of_string city country httpGET deserializeJson g doc str
    hcode hdoc hstr
  refine ⟨?_, ?_, ?_⟩
  · intro ds1 ds2 rest hs hne1 hne2 hd1 hd2 hrest hmax1 hmax2
    have hcolon : ∀ c r, ':' :: (ds2 ++ rest) = c :: r → isdigit c = false := by
      intro c r h
      cases h
      decide
    have hscan : sscanf_d_colon_d str g.fajrHour g.fajrMinute =
        some ((digitValue ds1 : Int), (digitValue ds2 : Int)) := by
      rw [hs]
      simp only [sscanf_d_colon_d, scanInt_digits ds1 _ hne1 hd1 hcolon hmax1, if_true,
        scanInt_digits ds2 rest hne2 hd2 hrest hmax2]
    have hres : fetchPrayerTimes city country httpGET deserializeJson g =
        some { g with fajrHour := digitValue ds1, fajrMinute := digitValue ds2 } := by
      rw [hfetch, hscan]
      rfl
    refine ⟨hres, ?_⟩
    intro h23 h59
    refine ⟨_, hres, ?_, ?_, ?_, ?_⟩
    · exact Int.natCast_nonneg _
    · show ((digitValue ds1 : Nat) : Int) ≤ 23
      exact_mod_cast h23
    · exact Int.natCast_nonneg _
    · show ((digitValue ds2 : Nat) : Int) ≤ 59
      exact_mod_cast h59
  · intro ds1 rest hs hne1 hd1 hrest hmax1
    have hrest1 : ∀ c r, rest = c :: r → isdigit c = false := fun c r h => (hrest c r h).1
    have hscan : sscanf_d_colon_d str g.fajrHour g.fajrMinute =
        some ((digitValue ds1 : Int), g.fajrMinute) := by
      rw [hs]
      simp only [sscanf_d_colon_d, scanInt_digits ds1 rest hne1 hd1 hrest1 hmax1]
      cases rest with
      | nil => rfl
      | cons c r =>
        have hc : c ≠ ':' := (hrest c r rfl).2
        simp [hc]
    rw [hfetch, hscan]
    rfl
  · intro h
    have hscan : sscanf_d_colon_d str g.fajrHour g.fajrMinute =
        some (g.fajrHour, g.fajrMinute) := by
      simp only [sscanf_d_colon_d, scanInt_no_number str h]
    rw [hfetch, hscan]
    rfl

/-- C6 amended, at a concrete input: status 200, Fajr = `25:99`, on the freshly
booted device. -/
theorem C6_fetch_stores_scanned_numbers_unchecked_witness :
    fetchPrayerTimes "Safi".toList "morocco".toList (fun _ => (200, []))
        (fun _ => some (timingsDoc "25:99".toList)) Device.boot =
      some { Device.boot with fajrHour := (digitValue "25".toList : Int),
                              fajrMinute := (digitValue "99".toList : Int) } :=
  ((C6_fetch_stores_scanned_numbers_unchecked "Safi".toList "morocco".toList
      (fun _ => (200, [])) (fun _ => some (timingsDoc "25:99".toList)) Device.boot
      (timingsDoc "25:99".toList) "25:99".toList (by decide) rfl (by decide)).1
    "25".toList "99".toList [] (by decide) (by decide) (by decide) (by decide) (by decide)
    (by intro c r h; cases h) (by decide) (by decide)).1

/-! ### One firing per civil day (C4) -/

theorem subUL_millisAt (phase a b : Nat) (hab : a ≤ b) (hb : b < MS_PER_DAY) :
    subUL (millisAt phase b) (millisAt phase a) = b - a := by
  unfold subUL millisAt ULONG_MOD
  unfold MS_PER_DAY at hb
  omega

theorem millisAt_mod (phase a : Nat) : millisAt phase a % ULONG_MOD = millisAt phase a := by
  unfold millisAt
  exact Nat.mod_mod _ _

theorem fajrNow_civilAt (day : Tm) (t : Nat) (g : Device) :
    fajrNow (some (civilAt day t)) g ↔
      g.fajrHour ≠ -1 ∧ ((t / 3600000 : Nat) : Int) = g.fajrHour ∧
        ((t / 60000 % 60 : Nat) : Int) = g.fajrMinute := by
  rw [fajrNow_some]
  rfl

/-- Once the lamp has fired in minute `q`, no later tick of the day writes HIGH. -/
theorem runTicks_cooling (phase : Nat) (day : Tm) (q : Nat) :
    ∀ (ticks : List TickInstants) (g : Device) (lo : Nat), inOrder lo ticks →
      g.fajrHour = ((q / 60 : Nat) : Int) → g.fajrMinute = ((q % 60 : Nat) : Int) →
      cooling phase q lo g →
      (runTicks phase day ticks g).2.count HIGH = 0 := by
  intro ticks
  induction ticks with
  | nil =>
    intro g lo _ _ _ _
    rfl
  | cons k ks ih =>
    intro g lo hord hfh hfm hcool
    obtain ⟨h1, h2, h3, h4, hrest⟩ := hord
    have hc : g.fajrHour ≠ -1 := by
      rw [hfh]
      omega
    simp only [runTicks, List.count_append]
    rcases hcool with ⟨hOn, t0, hq, hlo, hlit⟩ | ⟨hOff, hq⟩
    · have hel : subUL (millisAt phase k.atOff) g.lightOnTime = k.atOff - t0 := by
        rw [hlit]
        exact subUL_millisAt phase t0 k.atOff (by omega) h4
      rw [tick_on g _ _ _ hOn hc, hel, durationMs_eq]
      by_cases hd : 1800000 ≤ k.atOff - t0
      · simp only [hd, if_true]
        have hnext := ih { g with relay := LOW, isLightOn := false } k.atOff hrest hfh hfm
          (Or.inr ⟨rfl, by omega⟩)
        rw [hnext]
        decide
      · simp only [hd, if_false]
        have hnext := ih g k.atOff hrest hfh hfm
          (Or.inl ⟨hOn, t0, hq, by omega, hlit⟩)
        rw [hnext]
        rfl
    · have hNot : ¬ fajrNow (some (civilAt day k.atClock)) g := by
        rw [fajrNow_civilAt, hfh, hfm]
        omega
      rw [tick_off_idle g _ _ _ hOff hNot]
      have hnext := ih g k.atOff hrest hfh hfm (Or.inr ⟨hOff, by omega⟩)
      simp only [hnext]
      rfl

theorem runTicks_count_le_one (phase : Nat) (day : Tm) :
    ∀ (ticks : List TickInstants) (g : Device) (lo : Nat), inOrder lo ticks →
      (runTicks phase day ticks g).2.count HIGH ≤ 1 := by
  intro ticks
  induction ticks with
  | nil =>
    intro g lo _
    simp [runTicks]
  | cons k ks ih =>
    intro g lo hord
    obtain ⟨h1, h2, h3, h4, hrest⟩ := hord
    simp only [runTicks, List.count_append]
    by_cases hc : g.fajrHour = -1
    · rw [tick_noop g _ _ _ (Or.inr hc)]
      have hnext := ih g k.atOff hrest
      simpa using hnext
    · cases hL : g.isLightOn with
      | true =>
        rw [tick_on g _ _ _ hL hc]
        by_cases hd : durationMs ≤ subUL (millisAt phase k.atOff) g.lightOnTime
        · simp only [hd, if_true]
          have hnext := ih { g with relay := LOW, isLightOn := false } k.atOff hrest
          have h0 : List.count HIGH [LOW] = 0 := by decide
          omega
        · simp only [hd, if_false]
          have hnext := ih g k.atOff hrest
          simpa using hnext
      | false =>
        by_cases hNow : fajrNow (some (civilAt day k.atClock)) g
        · have hNow2 := (fajrNow_civilAt day k.atClock g).mp hNow
          obtain ⟨_, hh, hm⟩ := hNow2
          have hfh : g.fajrHour = ((k.atClock / 60000 / 60 : Nat) : Int) := by
            rw [← hh]
            congr 1
            omega
          have hfm : g.fajrMinute = ((k.atClock / 60000 % 60 : Nat) : Int) := hm.symm
          rw [tick_off_fire g _ _ _ hL hNow, millisAt_mod,
            subUL_millisAt phase k.atOn k.atOff h3 h4, durationMs_eq]
          by_cases hd : 1800000 ≤ k.atOff - k.atOn
          · simp only [hd, if_true]
            have hnext := runTicks_cooling phase day (k.atClock / 60000) ks
              { g with relay := LOW, isLightOn := false, lightOnTime := millisAt phase k.atOn }
              k.atOff hrest hfh hfm (Or.inr ⟨rfl, by omega⟩)
            rw [hnext]
            decide
          · simp only [hd, if_false]
            have hnext := runTicks_cooling phase day (k.atClock / 60000) ks
              { g with relay := HIGH, isLightOn := true, lightOnTime := millisAt phase k.atOn }
              k.atOff hrest hfh hfm (Or.inl ⟨rfl, k.atOn, by omega, h3, rfl⟩)
            rw [hnext]
            decide
        · rw [tick_off_idle g _ _ _ hL hNow]
          have hnext := ih g k.atOff hrest
          simpa using hnext

theorem runTicks_append (phase : Nat) (day : Tm) (pre post : List TickInstants) (g : Device) :
    runTicks phase day (pre ++ post) g =
      ((runTicks phase day post (runTicks phase day pre g).1).1,
        (runTicks phase day pre g).2 ++ (runTicks phase day post (runTicks phase day pre g).1).2) := by
  induction pre generalizing g with
  | nil => simp [runTicks]
  | cons k ks ih => simp [runTicks, ih, List.append_assoc]

/-- C4: for every sequence of ticks of `checkTimeAndControlLight` whose clock
readings lie, in program order, within one civil day, with the cache left as
it is, a clock that is always readable, and civil time in step with the
`millis()` counter (whatever the counter read at midnight, wrap included): the
relay is written HIGH at most once; so once the lamp has been switched On in
some part of the day, no tick of the rest of the day switches it On again. -/
theorem C4_at_most_one_switch_on_per_day (phase : Nat) (day : Tm)
    (ticks : List TickInstants) (g : Device) (hord : inOrder 0 ticks) :
    (runTicks phase day ticks g).2.count HIGH ≤ 1 ∧
    (∀ pre post : List TickInstants, ticks = pre ++ post →
      HIGH ∈ (runTicks phase day pre g).2 →
      HIGH ∉ (runTicks phase day post (runTicks phase day pre g).1).2) := by
  have hle := runTicks_count_le_one phase day ticks g 0 hord
  refine ⟨hle, ?_⟩
  intro pre post hsplit hpre hpost
  rw [hsplit, runTicks_append, List.count_append] at hle
  have h1 : 0 < List.count HIGH (runTicks phase day pre g).2 := List.count_pos_iff.mpr hpre
  have h2 : 0 < List.count HIGH (runTicks phase day post (runTicks phase day pre g).1).2 :=
    List.count_pos_iff.mpr hpost
  omega

/-- C4, at a concrete input: the sample day with Fajr cached as 04:30 and a
`millis()` counter that wraps during the ON window; the lamp is switched On
once (at 04:30:00) and Off once (at 05:00:10). -/
theorem C4_at_most_one_switch_on_per_day_witness :
    inOrder 0 sampleDay ∧
    (runTicks 4278000000 (clockAt 0 0) sampleDay
        { fajrHour := 4, fajrMinute := 30, isLightOn := false, lightOnTime := 0,
          relay := LOW }).2.count HIGH ≤ 1 :=
  ⟨by simp [inOrder, sampleDay, MS_PER_DAY],
   (C4_at_most_one_switch_on_per_day 4278000000 (clockAt 0 0) sampleDay
      { fajrHour := 4, fajrMinute := 30, isLightOn := false, lightOnTime := 0, relay := LOW }
      (by simp [inOrder, sampleDay, MS_PER_DAY])).1⟩

end FajrAlarmLamp
